import Mathlib

/-!
Verification of the Market Aggregation & Peer-Similarity Ranking Engine
(src/app3.py, src/app4.py, src/app5.py of the concorrencia-dashboard
repository).

The engine is embedded shallowly:

* a pandas column is a Lean `List ℚ`, a dataframe row is a structure;
* `Series.max()` on a non-empty column is `listMax`, `Series.mean()` is
  `listMean`;
* the multi-key `sort_values` used by the lead ranker is numpy `lexsort`,
  which is stable; it is modelled with the stable `List.insertionSort`.
  The single-key `sort_values('dist_euclidiana')` used by the peer finder
  defaults to numpy introsort: a plain stable insertion sort on columns of
  at most 15 rows, but free to reorder equal keys on longer columns.  It
  too is modelled with `List.insertionSort`, so statements touching the
  order of equal distances are either invariant under every ascending
  ordering of the distance column (they hold for whatever tie order the
  program picks), or carry an explicit at-most-15-rows hypothesis
  restricting them to the regime where the embedded sort is exactly the
  program's sort;
* the peer finder's distance column holds `sqrt(distSq)`; since `sqrt` is
  monotone on the non-negative rationals `distSq`, sorting the column is
  sorting by `distSq`, which keeps the whole pipeline computable.  The real
  distance of an entry is recovered by `PeerEntry.dist`;
* optional dataframe columns (`score_contato`, `is_high_ticket`) are
  presence flags; reading an absent column is a `KeyError`, modelled with
  `Except`.
-/

/-- pandas `Series.max()` on a column: fold of `max` over the entries
(0 on the empty column, which the dashboards never query). -/
def listMax : List ℚ → ℚ
  | [] => 0
  | a :: l => l.foldl max a

/-- pandas `Series.mean()`: sum of the entries divided by their number. -/
def listMean (xs : List ℚ) : ℚ := xs.sum / xs.length

/-- The §4.2 normalization scale, from
`max_total = city_matrix_full['total'].max() if city_matrix_full['total'].max() > 0 else 1`
(src/app3.py lines 258-259, src/app4.py 290-291, src/app5.py 282-283). -/
def scaleOf (xs : List ℚ) : ℚ := if 0 < listMax xs then listMax xs else 1

/-- One row of `city_matrix_full` (src/app3.py lines 246-249): the per-city
aggregate.  In app3 the second metric is the mean firm age (`idade`); app4
and app5 use the high-ticket count instead, with identical formulas. -/
structure CityStats where
  municipio_norm : String
  total : ℚ
  idade : ℚ
deriving DecidableEq

/-- `max_total` of src/app3.py line 258, computed once from the baseline. -/
def max_total (b : List CityStats) : ℚ := scaleOf (b.map CityStats.total)

/-- `max_idade` of src/app3.py line 259, computed once from the baseline. -/
def max_idade (b : List CityStats) : ℚ := scaleOf (b.map CityStats.idade)

/-- The radicand of the `dist_euclidiana` column (src/app3.py lines 261-264):
sum of the two per-metric-normalized squared differences to the target. -/
def distSq (b : List CityStats) (sel g : CityStats) : ℚ :=
  ((g.total - sel.total) / max_total b) ^ 2 + ((g.idade - sel.idade) / max_idade b) ^ 2

/-- The `dist_euclidiana` column value itself (src/app3.py line 261):
`np.sqrt` of the normalized squared differences. -/
noncomputable def dist_euclidiana (b : List CityStats) (sel g : CityStats) : ℝ :=
  Real.sqrt (distSq b sel g)

/-- One row of `peer_cluster` (src/app3.py lines 266-269): city key, squared
distance, and the `Classificação` tag (`true` = 'Alvo Atual'). -/
structure PeerEntry where
  municipio_norm : String
  dist2 : ℚ
  alvo : Bool
deriving DecidableEq

/-- Real distance reported for an entry: the source stores `sqrt` in the
`dist_euclidiana` column; the entry keeps the rational radicand. -/
noncomputable def PeerEntry.dist (e : PeerEntry) : ℝ := Real.sqrt e.dist2

/-- Comparison used by `sort_values('dist_euclidiana')`: ascending squared
distance (equivalent to ascending distance, `sqrt` being monotone). -/
def peerLe (a b : PeerEntry) : Prop := a.dist2 ≤ b.dist2

instance : DecidableRel peerLe :=
  fun a b => inferInstanceAs (Decidable (a.dist2 ≤ b.dist2))

instance : IsTotal PeerEntry peerLe := ⟨fun a b => le_total a.dist2 b.dist2⟩

instance : IsTrans PeerEntry peerLe := ⟨fun _ _ _ h1 h2 => le_trans h1 h2⟩

/-- The baseline rows with their distance column and target tag
(src/app3.py lines 261-269, before sorting). -/
def peer_entries (b : List CityStats) (sel : CityStats) (c : String) : List PeerEntry :=
  b.map fun g => ⟨g.municipio_norm, distSq b sel g, g.municipio_norm == c⟩

/-- The Peer Finder (src/app3.py lines 251-269, src/app4.py 284-302,
src/app5.py 276-294): look the target up in the baseline (`sel_stats`,
first matching row); if absent produce nothing; otherwise sort the tagged
baseline by distance and keep the first 6 rows (`head(6)`).  The embedded
`insertionSort` is the program's sort exactly for baselines of at most 15
groups (numpy's insertion-sort regime); on larger baselines the program's
tie order is unspecified, so only tie-order-invariant properties, or
properties restricted to small baselines, are read off this definition
(see the header note). -/
def peerFinder (b : List CityStats) (sel_cidade : String) : Option (List PeerEntry) :=
  match b.find? (fun g => g.municipio_norm == sel_cidade) with
  | none => none
  | some sel => some ((List.insertionSort peerLe (peer_entries b sel sel_cidade)).take 6)

/-- One row of the lead table, with the columns the ranker reads
(src/app4.py lines 409-412). -/
structure LeadRow where
  cnpj_completo : String
  capital_social : ℚ
  score_contato : ℚ
  idade_empresa_anos : ℚ
deriving DecidableEq

/-- Three-key lead comparator: capital descending, then contact score
descending, then age descending (src/app4.py line 410, src/app5.py 387). -/
def leadLe3 (a b : LeadRow) : Prop :=
  b.capital_social < a.capital_social ∨
    (a.capital_social = b.capital_social ∧
      (b.score_contato < a.score_contato ∨
        (a.score_contato = b.score_contato ∧ b.idade_empresa_anos ≤ a.idade_empresa_anos)))

/-- Two-key lead comparator: capital descending then age descending
(src/app4.py line 412, src/app5.py 389, src/app3.py 364). -/
def leadLe2 (a b : LeadRow) : Prop :=
  b.capital_social < a.capital_social ∨
    (a.capital_social = b.capital_social ∧ b.idade_empresa_anos ≤ a.idade_empresa_anos)

instance : DecidableRel leadLe3 := fun a b =>
  inferInstanceAs (Decidable (_ ∨ _))

instance : DecidableRel leadLe2 := fun a b =>
  inferInstanceAs (Decidable (_ ∨ _))

instance : IsTotal LeadRow leadLe3 := by
  constructor
  intro a b
  rcases lt_trichotomy a.capital_social b.capital_social with h | h | h
  · exact Or.inr (Or.inl h)
  · rcases lt_trichotomy a.score_contato b.score_contato with h2 | h2 | h2
    · exact Or.inr (Or.inr ⟨h.symm, Or.inl h2⟩)
    · rcases le_total a.idade_empresa_anos b.idade_empresa_anos with h3 | h3
      · exact Or.inr (Or.inr ⟨h.symm, Or.inr ⟨h2.symm, h3⟩⟩)
      · exact Or.inl (Or.inr ⟨h, Or.inr ⟨h2, h3⟩⟩)
    · exact Or.inl (Or.inr ⟨h, Or.inl h2⟩)
  · exact Or.inl (Or.inl h)

instance : IsTrans LeadRow leadLe3 := by
  constructor
  intro a b c hab hbc
  rcases hab with h1 | ⟨e1, h1⟩
  · rcases hbc with h2 | ⟨e2, h2⟩
    · exact Or.inl (h2.trans h1)
    · exact Or.inl (by rw [← e2]; exact h1)
  · rcases hbc with h2 | ⟨e2, h2⟩
    · exact Or.inl (by rw [e1]; exact h2)
    · refine Or.inr ⟨e1.trans e2, ?_⟩
      rcases h1 with s1 | ⟨f1, s1⟩
      · rcases h2 with s2 | ⟨f2, s2⟩
        · exact Or.inl (s2.trans s1)
        · exact Or.inl (by rw [← f2]; exact s1)
      · rcases h2 with s2 | ⟨f2, s2⟩
        · exact Or.inl (by rw [f1]; exact s2)
        · exact Or.inr ⟨f1.trans f2, s2.trans s1⟩

instance : IsTotal LeadRow leadLe2 := by
  constructor
  intro a b
  rcases lt_trichotomy a.capital_social b.capital_social with h | h | h
  · exact Or.inr (Or.inl h)
  · rcases le_total a.idade_empresa_anos b.idade_empresa_anos with h3 | h3
    · exact Or.inr (Or.inr ⟨h.symm, h3⟩)
    · exact Or.inl (Or.inr ⟨h, h3⟩)
  · exact Or.inl (Or.inl h)

instance : IsTrans LeadRow leadLe2 := by
  constructor
  intro a b c hab hbc
  rcases hab with h1 | ⟨e1, h1⟩
  · rcases hbc with h2 | ⟨e2, h2⟩
    · exact Or.inl (h2.trans h1)
    · exact Or.inl (by rw [← e2]; exact h1)
  · rcases hbc with h2 | ⟨e2, h2⟩
    · exact Or.inl (by rw [e1]; exact h2)
    · exact Or.inr ⟨e1.trans e2, h2.trans h1⟩

/-- The Lead Ranker (src/app4.py lines 409-412, src/app5.py 386-389):
`if 'score_contato' in df.columns` use the three-key sort, otherwise the
two-key sort.  pandas multi-key `sort_values` is `lexsort`, a stable sort. -/
def sort_leads (has_score_contato : Bool) (rows : List LeadRow) : List LeadRow :=
  if has_score_contato then List.insertionSort leadLe3 rows
  else List.insertionSort leadLe2 rows

/-- One row of the app3 snapshot, with the columns the aggregation / filter /
KPI paths read. -/
structure CompanyRow where
  cnpj_completo : String
  uf_norm : String
  municipio_norm : String
  porte_descricao_norm : String
  natureza_juridica : String
  capital_social : ℚ
  idade_empresa_anos : ℚ
deriving DecidableEq

/-- Ascending order on group keys: pandas `groupby` emits its groups with
sorted keys. -/
def strLe (a b : String) : Prop := ¬ b < a

instance : DecidableRel strLe := fun a b => inferInstanceAs (Decidable (¬ b < a))

/-- `df.groupby('municipio_norm').agg(total=('cnpj_completo','count'),
idade=('idade_empresa_anos','mean'))` (src/app3.py lines 246-249): one
aggregate row per distinct city key, keys sorted ascending. -/
def groupbyMunicipio (rows : List CompanyRow) : List CityStats :=
  (List.insertionSort strLe (rows.map CompanyRow.municipio_norm).dedup).map fun k =>
    let grp := rows.filter fun r => r.municipio_norm == k
    ⟨k, (grp.length : ℚ), listMean (grp.map CompanyRow.idade_empresa_anos)⟩

/-- `sidebar_filters` (src/app3.py lines 39-71): restrict to the selected
state, then the selected city, then the selected size categories (a
non-empty multiselect filters with `isin`). -/
def sidebar_filters (df : List CompanyRow) (sel_uf sel_cidade : String)
    (sel_porte : List String) : List CompanyRow :=
  let d1 := if sel_uf ≠ "Todos" then df.filter (fun r => r.uf_norm == sel_uf) else df
  let d2 := if sel_uf ≠ "Todos" ∧ sel_cidade ≠ "Todas" then
    d1.filter (fun r => r.municipio_norm == sel_cidade) else d1
  if sel_porte ≠ [] then d2.filter (fun r => sel_porte.contains r.porte_descricao_norm) else d2

/-- The peer branch of tab 1 (src/app3.py lines 245-269): the baseline is
`df[df['uf_norm'] == sel_uf]` — the full snapshot `df` restricted to the
selected state, not the sidebar-filtered `df_filtered`. -/
def peerBranch (df : List CompanyRow) (sel_uf sel_cidade : String) : Option (List PeerEntry) :=
  let df_state_baseline := df.filter fun r => r.uf_norm == sel_uf
  peerFinder (groupbyMunicipio df_state_baseline) sel_cidade

/-- Tab 1 in the city-selected mode (src/app3.py lines 241-269): the peer
cluster is shown when a concrete state and city are selected.  The category
multiselect `sel_porte` reaches `main` (it shapes `df_filtered`) but the
peer computation reads only the unfiltered snapshot `df`. -/
def tab1_city_view (df : List CompanyRow) (sel_uf sel_cidade : String)
    (sel_porte : List String) : Option (List PeerEntry) :=
  if sel_uf ≠ "Todos" ∧ sel_cidade ≠ "Todas" then peerBranch df sel_uf sel_cidade else none

/-- Percentage KPI (src/app3.py lines 165-169, src/app4.py 184-194,
src/app5.py 177-189): `matching / total * 100` guarded by `if total > 0`,
`0` otherwise — the division is unreachable on an empty population. -/
def pct_of {α : Type} (p : α → Bool) (rows : List α) : ℚ :=
  if 0 < rows.length then (rows.countP p : ℚ) / (rows.length : ℚ) * 100 else 0

/-- `perc_ltda` (src/app3.py lines 165-167): share of records whose legal
nature code starts with '2'. -/
def perc_ltda (rows : List CompanyRow) : ℚ :=
  pct_of (fun r => r.natureza_juridica.startsWith "2") rows

/-- One row of the app4 (education) snapshot. -/
structure EduRow where
  cnpj_completo : String
  uf_norm : String
  municipio_norm : String
  capital_social : ℚ
  score_contato : ℚ
  idade_empresa_anos : ℚ
  is_high_ticket : Bool
  tier_cliente : String
deriving DecidableEq

/-- An education dataframe: its rows plus which optional columns exist.
Reading an absent column raises a pandas `KeyError`. -/
structure EduFrame where
  rows : List EduRow
  has_score_contato : Bool
  has_is_high_ticket : Bool

/-- The premium tier categories used to derive a default high-ticket flag
(src/app4.py line 231). -/
def premium_tiers : List String :=
  ["Corporate (Colégios/Faculdades)", "Key Account (Grupos Educacionais)"]

/-- src/app4.py lines 229-231 ('Garante que is_high_ticket exista'): only in
the national expansion branch, an absent high-ticket column is derived from
membership in the premium tier categories. -/
def ensure_high_ticket (f : EduFrame) : EduFrame :=
  if f.has_is_high_ticket then f
  else
    { rows := f.rows.map fun r => { r with is_high_ticket := premium_tiers.contains r.tier_cliente }
      has_score_contato := f.has_score_contato
      has_is_high_ticket := true }

/-- Per-city aggregate of the education snapshot: record count and
high-ticket count (src/app4.py lines 279-282). -/
structure EduCityStats where
  municipio_norm : String
  total : ℚ
  high_ticket : ℚ
deriving DecidableEq

/-- `groupby('municipio_norm').agg(total=..., high_ticket=('is_high_ticket','sum'))`
over education rows (src/app4.py lines 252-256 and 279-282). -/
def groupbyMunicipioHT (rows : List EduRow) : List EduCityStats :=
  (List.insertionSort strLe (rows.map EduRow.municipio_norm).dedup).map fun k =>
    let grp := rows.filter fun r => r.municipio_norm == k
    ⟨k, (grp.length : ℚ), (grp.countP EduRow.is_high_ticket : ℚ)⟩

/-- The state-level `city_matrix` aggregation (src/app4.py lines 252-256):
it reads the `is_high_ticket` column with no presence guard — when the
column is absent pandas raises `KeyError` (the derivation of src/app4.py
lines 229-231 runs only in the national expansion branch). -/
def city_matrix_state (f : EduFrame) : Except String (List EduCityStats) :=
  if f.has_is_high_ticket then Except.ok (groupbyMunicipioHT f.rows)
  else Except.error "KeyError: is_high_ticket"

/-- The lead ranking of src/app4.py lines 409-412 applied to an education
frame: the contact-score key is guarded by column presence. -/
def rank_institutions (f : EduFrame) : List LeadRow :=
  sort_leads f.has_score_contato
    (f.rows.map fun r => ⟨r.cnpj_completo, r.capital_social, r.score_contato, r.idade_empresa_anos⟩)

/-- The high-ticket KPI (src/app4.py lines 184-188): guarded by column
presence, with a zero default when the column is absent. -/
def kpi_high_ticket_perc (f : EduFrame) : ℚ :=
  if f.has_is_high_ticket then pct_of EduRow.is_high_ticket f.rows else 0

/-- Concrete education frame missing both optional columns. -/
def eduRow0 : EduRow :=
  ⟨"00000000000000", "sp", "campinas", 500000, 80, 12, false, "Corporate (Colégios/Faculdades)"⟩

/-- A one-row education frame whose snapshot does not carry the
`score_contato` and `is_high_ticket` columns. -/
def eduFrame0 : EduFrame := ⟨[eduRow0], false, false⟩

/-! ### List helper lemmas -/

theorem le_foldl_max (b : ℚ) (l : List ℚ) : b ≤ l.foldl max b := by
  induction l generalizing b with
  | nil => exact le_refl b
  | cons c t ih =>
    calc b ≤ max b c := le_max_left b c
    _ ≤ t.foldl max (max b c) := ih (max b c)

theorem mem_le_foldl_max (a : ℚ) (l : List ℚ) : ∀ b, a ∈ l → a ≤ l.foldl max b := by
  induction l with
  | nil => intro b h; cases h
  | cons c t ih =>
    intro b h
    rcases List.mem_cons.mp h with rfl | h2
    · exact le_trans (le_max_right b a) (le_foldl_max (max b a) t)
    · exact ih (max b c) h2

theorem mem_le_listMax (a : ℚ) (l : List ℚ) (h : a ∈ l) : a ≤ listMax l := by
  cases l with
  | nil => cases h
  | cons c t =>
    rcases List.mem_cons.mp h with rfl | h2
    · exact le_foldl_max a t
    · exact mem_le_foldl_max a t c h2

theorem listMax_nonneg (l : List ℚ) (h : ∀ v ∈ l, 0 ≤ v) : 0 ≤ listMax l := by
  cases l with
  | nil => exact le_refl 0
  | cons c t =>
    exact le_trans (h c (List.mem_cons_self c t)) (mem_le_listMax c (c :: t) (List.mem_cons_self c t))

/-! ### Claim C5 -/

/-- Claim C5: the Normalizer's scale factor equals the baseline maximum of
the metric, except that it is 1 when that maximum is 0 (no division by
zero); hence with a zero maximum the normalized values equal the raw
values, every baseline member normalizes into [0, 1], and a member
achieving a positive maximum normalizes to exactly 1.  The non-negativity
hypothesis is the §3 data-model invariant (counts and ages are ≥ 0). -/
theorem scaleOf_spec (xs : List ℚ) (hnn : ∀ v ∈ xs, 0 ≤ v) :
    (listMax xs ≠ 0 → scaleOf xs = listMax xs) ∧
    (listMax xs = 0 → scaleOf xs = 1 ∧ ∀ v : ℚ, v / scaleOf xs = v) ∧
    (∀ v ∈ xs, 0 ≤ v / scaleOf xs ∧ v / scaleOf xs ≤ 1) ∧
    (∀ v ∈ xs, v = listMax xs → 0 < v → v / scaleOf xs = 1) := by
  refine ⟨?_, ?_, ?_, ?_⟩
  · intro h
    have hpos : 0 < listMax xs := lt_of_le_of_ne (listMax_nonneg xs hnn) (Ne.symm h)
    simp [scaleOf, hpos]
  · intro h
    have hneg : ¬ 0 < listMax xs := by rw [h]; exact lt_irrefl 0
    exact ⟨by simp [scaleOf, hneg], fun v => by simp [scaleOf, hneg]⟩
  · intro v hv
    by_cases hpos : 0 < listMax xs
    · rw [scaleOf, if_pos hpos]
      exact ⟨div_nonneg (hnn v hv) hpos.le, (div_le_one hpos).mpr (mem_le_listMax v xs hv)⟩
    · have hv0 : v = 0 :=
        le_antisymm (le_trans (mem_le_listMax v xs hv) (not_lt.mp hpos)) (hnn v hv)
      rw [scaleOf, if_neg hpos, hv0]
      norm_num
  · intro v hv hmax hvpos
    have hpos : 0 < listMax xs := hmax ▸ hvpos
    rw [scaleOf, if_pos hpos, ← hmax, div_self (ne_of_gt hvpos)]

/-- Witness for C5 at the concrete baseline column [2, 1]. -/
theorem scaleOf_spec_witness :
    (listMax [(2 : ℚ), 1] ≠ 0 → scaleOf [(2 : ℚ), 1] = listMax [(2 : ℚ), 1]) ∧
    (listMax [(2 : ℚ), 1] = 0 → scaleOf [(2 : ℚ), 1] = 1 ∧ ∀ v : ℚ, v / scaleOf [(2 : ℚ), 1] = v) ∧
    (∀ v ∈ [(2 : ℚ), 1], 0 ≤ v / scaleOf [(2 : ℚ), 1] ∧ v / scaleOf [(2 : ℚ), 1] ≤ 1) ∧
    (∀ v ∈ [(2 : ℚ), 1], v = listMax [(2 : ℚ), 1] → 0 < v → v / scaleOf [(2 : ℚ), 1] = 1) :=
  scaleOf_spec [2, 1] (by norm_num)

/-! ### Claim C8 -/

/-- Claim C8: every percentage KPI lies in [0, 100]; on the empty
population every percentage KPI equals 0 (the `if total > 0` guard makes
the division unreachable there).  Stated for the generic guarded
percentage `pct_of` and for the named KPIs `kpi_high_ticket_perc` and
`perc_ltda` built from it. -/
theorem pct_of_bounds :
    (∀ (α : Type) (p : α → Bool) (rows : List α),
      0 ≤ pct_of p rows ∧ pct_of p rows ≤ 100) ∧
    (∀ (α : Type) (p : α → Bool), pct_of p ([] : List α) = 0) ∧
    (∀ f : EduFrame, 0 ≤ kpi_high_ticket_perc f ∧ kpi_high_ticket_perc f ≤ 100) ∧
    kpi_high_ticket_perc ⟨[], true, true⟩ = 0 ∧
    (∀ rows : List CompanyRow, 0 ≤ perc_ltda rows ∧ perc_ltda rows ≤ 100) ∧
    perc_ltda [] = 0 := by
  have hmain : ∀ (α : Type) (p : α → Bool) (rows : List α),
      0 ≤ pct_of p rows ∧ pct_of p rows ≤ 100 := by
    intro α p rows
    rw [pct_of]
    by_cases h : 0 < rows.length
    · rw [if_pos h]
      have hlen : (0 : ℚ) < (rows.length : ℚ) := by exact_mod_cast h
      have hcnt : ((rows.countP p : ℕ) : ℚ) ≤ ((rows.length : ℕ) : ℚ) := by
        exact_mod_cast List.countP_le_length p
      constructor
      · positivity
      · calc ((rows.countP p : ℕ) : ℚ) / (rows.length : ℚ) * 100
            ≤ 1 * 100 := by
              apply mul_le_mul_of_nonneg_right _ (by norm_num)
              exact (div_le_one hlen).mpr hcnt
        _ = 100 := one_mul 100
    · rw [if_neg h]
      norm_num
  refine ⟨hmain, ?_, ?_, ?_, ?_, ?_⟩
  · intro α p
    simp [pct_of]
  · intro f
    rw [kpi_high_ticket_perc]
    by_cases h : f.has_is_high_ticket = true
    · rw [if_pos h]; exact hmain _ _ _
    · rw [if_neg h]; norm_num
  · simp [kpi_high_ticket_perc, pct_of]
  · intro rows
    exact hmain _ _ _
  · simp [perc_ltda, pct_of]

/-! ### Claim C2 -/

/-- Claim C2: the Lead Ranker orders records by descending capital, then
descending contact score only when that column is present, then descending
age; when the contact-score column is absent the output coincides exactly
with the two-key (capital, age) sort of the same input order.  The sorts
are permutations of the input, and the two comparators are the §4.4
lexicographic keys. -/
theorem sort_leads_spec (rows : List LeadRow) :
    List.Sorted leadLe3 (sort_leads true rows) ∧
    List.Sorted leadLe2 (sort_leads false rows) ∧
    (sort_leads true rows).Perm rows ∧
    (sort_leads false rows).Perm rows ∧
    sort_leads false rows = List.insertionSort leadLe2 rows := by
  refine ⟨?_, ?_, ?_, ?_, rfl⟩
  · simpa [sort_leads] using List.sorted_insertionSort leadLe3 rows
  · simpa [sort_leads] using List.sorted_insertionSort leadLe2 rows
  · simpa [sort_leads] using List.perm_insertionSort leadLe3 rows
  · simpa [sort_leads] using List.perm_insertionSort leadLe2 rows

/-! ### Claim C10 -/

/-- Claim C10: for a fixed snapshot, state and city, the peer view is the
same for every setting of the category sidebar filters, because the peer
baseline and target statistics are computed from the unfiltered snapshot
restricted only to the selected state (src/app3.py line 245 reads `df`,
not `df_filtered`). -/
theorem peer_view_category_invariant (df : List CompanyRow) (sel_uf sel_cidade : String)
    (p1 p2 : List String) :
    tab1_city_view df sel_uf sel_cidade p1 = tab1_city_view df sel_uf sel_cidade p2 ∧
    peerBranch df sel_uf sel_cidade =
      peerFinder (groupbyMunicipio (df.filter fun r => r.uf_norm == sel_uf)) sel_cidade :=
  ⟨rfl, rfl⟩

/-! ### Stability of the distance sort -/

theorem filter_orderedInsert_key {α : Type} (r : α → α → Prop) [DecidableRel r]
    (key : α → ℚ) (hr : ∀ x y, r x y ↔ key x ≤ key y) (q : ℚ) (a : α) (l : List α) :
    (List.orderedInsert r a l).filter (fun x => decide (key x = q)) =
      if key a = q then a :: l.filter (fun x => decide (key x = q))
      else l.filter (fun x => decide (key x = q)) := by
  induction l with
  | nil =>
    by_cases h : key a = q <;> simp [List.orderedInsert, h]
  | cons b t ih =>
    simp only [List.orderedInsert]
    by_cases hab : r a b
    · rw [if_pos hab]
      by_cases ha : key a = q <;> simp [List.filter_cons, ha]
    · rw [if_neg hab]
      have hle : ¬ key a ≤ key b := fun hc => hab ((hr a b).mpr hc)
      by_cases hb : key b = q
      · have ha : ¬ key a = q := by
          intro ha
          exact hle (le_of_eq (ha.trans hb.symm))
        simp [List.filter_cons, hb, ha, ih]
      · by_cases ha : key a = q <;> simp [List.filter_cons, hb, ha, ih]

theorem filter_insertionSort_key {α : Type} (r : α → α → Prop) [DecidableRel r]
    (key : α → ℚ) (hr : ∀ x y, r x y ↔ key x ≤ key y) (q : ℚ) (l : List α) :
    (List.insertionSort r l).filter (fun x => decide (key x = q)) =
      l.filter (fun x => decide (key x = q)) := by
  induction l with
  | nil => rfl
  | cons a t ih =>
    simp only [List.insertionSort]
    rw [filter_orderedInsert_key r key hr q a (List.insertionSort r t)]
    by_cases h : key a = q <;> simp [List.filter_cons, h, ih]

theorem sorted_split_zero {α : Type} (key : α → ℚ) :
    ∀ l : List α, l.Pairwise (fun x y => key x ≤ key y) → (∀ x ∈ l, 0 ≤ key x) →
      l = l.filter (fun x => decide (key x = 0)) ++ l.filter (fun x => !decide (key x = 0)) := by
  intro l
  induction l with
  | nil => intro _ _; rfl
  | cons a t ih =>
    intro hs hn
    have hpair := List.pairwise_cons.mp hs
    by_cases h : key a = 0
    · have ht := ih hpair.2 (fun x hx => hn x (List.mem_cons_of_mem a hx))
      have hfa : (a :: t).filter (fun x => decide (key x = 0)) =
          a :: t.filter (fun x => decide (key x = 0)) := by
        simp [List.filter_cons, h]
      have hfb : (a :: t).filter (fun x => !decide (key x = 0)) =
          t.filter (fun x => !decide (key x = 0)) := by
        simp [List.filter_cons, h]
      rw [hfa, hfb, List.cons_append]
      exact congrArg (List.cons a) ht
    · have hpos : 0 < key a := lt_of_le_of_ne (hn a (List.mem_cons_self a t)) (Ne.symm h)
      have hallnz : ∀ x ∈ t, key x ≠ 0 := by
        intro x hx h0
        have hax := hpair.1 x hx
        rw [h0] at hax
        exact absurd (lt_of_lt_of_le hpos hax) (lt_irrefl 0)
      have hz : t.filter (fun x => decide (key x = 0)) = [] := by
        rw [List.filter_eq_nil_iff]
        intro x hx
        simp [hallnz x hx]
      have hq : t.filter (fun x => !decide (key x = 0)) = t := by
        rw [List.filter_eq_self]
        intro x hx
        simp [hallnz x hx]
      simp [List.filter_cons, h, hz, hq]

theorem find?_append_cons {α : Type} (p : α → Bool) (l2 : List α) (a : α) :
    ∀ l1 : List α, (∀ x ∈ l1, p x = false) → p a = true →
      (l1 ++ a :: l2).find? p = some a := by
  intro l1
  induction l1 with
  | nil => intro _ ha; simp [List.find?, ha]
  | cons b t ih =>
    intro h1 ha
    have hb := h1 b (List.mem_cons_self b t)
    simp only [List.cons_append, List.find?, hb]
    exact ih (fun x hx => h1 x (List.mem_cons_of_mem b hx)) ha

theorem peerFinder_eq_of_find? (b : List CityStats) (c : String) (sel : CityStats)
    (hf : b.find? (fun g => g.municipio_norm == c) = some sel) :
    peerFinder b c = some ((List.insertionSort peerLe (peer_entries b sel c)).take 6) := by
  simp only [peerFinder, hf]

/-! ### Claim C1 -/

/-- Claim C1: for every group g of the baseline, the Peer Finder's distance
is `sqrt(((m1(g)-m1(target))/scale1)^2 + ((m2(g)-m2(target))/scale2)^2)`
where each scale is the baseline's own maximum of the metric, a single
value computed from the baseline and not from the candidate.  The
positivity hypotheses resolve the `if max > 0 else 1` guard so that the
scale literally equals the baseline maximum.  Every entry the peer finder
emits carries one of these distances. -/
theorem peerFinder_distance_formula (b : List CityStats) (c : String) (sel : CityStats)
    (hf : b.find? (fun g => g.municipio_norm == c) = some sel)
    (h1 : 0 < listMax (b.map CityStats.total))
    (h2 : 0 < listMax (b.map CityStats.idade)) :
    (∀ g ∈ b, dist_euclidiana b sel g =
      Real.sqrt ((((g.total : ℝ) - (sel.total : ℝ)) / ((listMax (b.map CityStats.total) : ℚ) : ℝ)) ^ 2 +
        (((g.idade : ℝ) - (sel.idade : ℝ)) / ((listMax (b.map CityStats.idade) : ℚ) : ℝ)) ^ 2)) ∧
    (∀ E, peerFinder b c = some E → ∀ e ∈ E, ∃ g ∈ b, e.dist = dist_euclidiana b sel g) := by
  constructor
  · intro g hg
    rw [dist_euclidiana, distSq, max_total, max_idade, scaleOf, scaleOf, if_pos h1, if_pos h2]
    push_cast
    rfl
  · intro E hE e he
    rw [peerFinder_eq_of_find? b c sel hf] at hE
    have he2 : e ∈ List.insertionSort peerLe (peer_entries b sel c) :=
      List.mem_of_mem_take ((Option.some.inj hE) ▸ he)
    have he3 : e ∈ peer_entries b sel c :=
      (List.perm_insertionSort peerLe (peer_entries b sel c)).subset he2
    rcases List.mem_map.mp he3 with ⟨g, hg, hge⟩
    exact ⟨g, hg, by rw [← hge]; rfl⟩

/-- Witness for C1: a concrete two-city baseline with positive metric
maxima. -/
theorem peerFinder_distance_formula_witness :
    (∀ g ∈ [CityStats.mk "x" 1 2, CityStats.mk "y" 3 4],
      dist_euclidiana [CityStats.mk "x" 1 2, CityStats.mk "y" 3 4] (CityStats.mk "x" 1 2) g =
      Real.sqrt ((((g.total : ℝ) - ((CityStats.mk "x" 1 2).total : ℝ)) /
          ((listMax ([CityStats.mk "x" 1 2, CityStats.mk "y" 3 4].map CityStats.total) : ℚ) : ℝ)) ^ 2 +
        (((g.idade : ℝ) - ((CityStats.mk "x" 1 2).idade : ℝ)) /
          ((listMax ([CityStats.mk "x" 1 2, CityStats.mk "y" 3 4].map CityStats.idade) : ℚ) : ℝ)) ^ 2)) ∧
    (∀ E, peerFinder [CityStats.mk "x" 1 2, CityStats.mk "y" 3 4] "x" = some E →
      ∀ e ∈ E, ∃ g ∈ [CityStats.mk "x" 1 2, CityStats.mk "y" 3 4],
        e.dist = dist_euclidiana [CityStats.mk "x" 1 2, CityStats.mk "y" 3 4] (CityStats.mk "x" 1 2) g) :=
  peerFinder_distance_formula [CityStats.mk "x" 1 2, CityStats.mk "y" 3 4] "x" (CityStats.mk "x" 1 2)
    (by simp [List.find?]) (by norm_num [listMax]) (by norm_num [listMax])

/-! ### Claim C4 -/

/-- Claim C4: whenever the Peer Finder produces a result, that result is
sorted ascending by distance, all its distances are non-negative, and its
length is `min 6 |baseline|` (all groups are returned when the baseline
has fewer than 6). -/
theorem peerFinder_sorted_nonneg_length (b : List CityStats) (c : String) (E : List PeerEntry)
    (h : peerFinder b c = some E) :
    E.Sorted (fun e1 e2 => e1.dist ≤ e2.dist) ∧ (∀ e ∈ E, 0 ≤ e.dist) ∧
      E.length = min 6 b.length := by
  cases hf : b.find? (fun g => g.municipio_norm == c) with
  | none =>
    rw [peerFinder, hf] at h
    cases h
  | some sel =>
    have hE : E = (List.insertionSort peerLe (peer_entries b sel c)).take 6 := by
      rw [peerFinder_eq_of_find? b c sel hf] at h
      exact (Option.some.inj h).symm
    subst hE
    refine ⟨?_, ?_, ?_⟩
    · have hs : (List.insertionSort peerLe (peer_entries b sel c)).Sorted peerLe :=
        List.sorted_insertionSort peerLe (peer_entries b sel c)
    

      have hst := List.Pairwise.sublist
        (List.take_sublist 6 (List.insertionSort peerLe (peer_entries b sel c))) hs
      exact hst.imp fun hab => Real.sqrt_le_sqrt (by exact_mod_cast hab)
    · intro e he
      exact Real.sqrt_nonneg _
    · simp [List.length_take, (List.perm_insertionSort peerLe (peer_entries b sel c)).length_eq,
        peer_entries]

/-- Witness for C4 at a concrete single-city baseline. -/
theorem peerFinder_sorted_nonneg_length_witness :
    ([PeerEntry.mk "x" 0 true] : List PeerEntry).Sorted (fun e1 e2 => e1.dist ≤ e2.dist) ∧
    (∀ e ∈ ([PeerEntry.mk "x" 0 true] : List PeerEntry), 0 ≤ e.dist) ∧
    ([PeerEntry.mk "x" 0 true] : List PeerEntry).length = min 6 ([CityStats.mk "x" 1 2] : List CityStats).length :=
  peerFinder_sorted_nonneg_length [CityStats.mk "x" 1 2] "x" [PeerEntry.mk "x" 0 true]
    (by simp [peerFinder, peer_entries, List.find?, distSq, max_total, max_idade, scaleOf, listMax])

/-! ### Claim C7 -/

theorem sum_map_natCast {α : Type} (l : List α) (f : α → ℕ) :
    (l.map fun a => ((f a : ℕ) : ℚ)).sum = (((l.map f).sum : ℕ) : ℚ) := by
  induction l with
  | nil => simp
  | cons a t ih => simp [ih]

/-- Claim C7: on a non-empty population the Aggregator emits exactly one
aggregate per distinct group key present (the key list is duplicate-free
and has the same members as the population's key column), and the
per-group counts sum to the population size. -/
theorem groupbyMunicipio_counts (rows : List CompanyRow) (hne : rows ≠ []) :
    ((groupbyMunicipio rows).map CityStats.municipio_norm).Nodup ∧
    (∀ k, k ∈ (groupbyMunicipio rows).map CityStats.municipio_norm ↔
      k ∈ rows.map CompanyRow.municipio_norm) ∧
    ((groupbyMunicipio rows).map CityStats.total).sum = (rows.length : ℚ) := by
  have hperm : List.Perm (List.insertionSort strLe (rows.map CompanyRow.municipio_norm).dedup)
      (rows.map CompanyRow.municipio_norm).dedup :=
    List.perm_insertionSort strLe (rows.map CompanyRow.municipio_norm).dedup
  have hmapkey : (groupbyMunicipio rows).map CityStats.municipio_norm =
      List.insertionSort strLe (rows.map CompanyRow.municipio_norm).dedup := by
    simp only [groupbyMunicipio, List.map_map]
    have hid : ∀ x ∈ List.insertionSort strLe (rows.map CompanyRow.municipio_norm).dedup,
        (CityStats.municipio_norm ∘ fun k =>
          CityStats.mk k ((rows.filter (fun r => r.municipio_norm == k)).length : ℚ)
            (listMean ((rows.filter (fun r => r.municipio_norm == k)).map
              CompanyRow.idade_empresa_anos))) x = id x :=
      fun x _ => rfl
    rw [List.map_congr_left hid, List.map_id]
  refine ⟨?_, ?_, ?_⟩
  · rw [hmapkey]
    exact hperm.nodup_iff.mpr (List.nodup_dedup _)
  · intro k
    rw [hmapkey, hperm.mem_iff, List.mem_dedup]
  · have hcnt : ∀ k, (rows.filter (fun r => r.municipio_norm == k)).length =
        (rows.map CompanyRow.municipio_norm).count k := by
      intro k
      rw [← List.countP_eq_length_filter, List.count, List.countP_map]
      rfl
    have hmaptot : (groupbyMunicipio rows).map CityStats.total =
        (List.insertionSort strLe (rows.map CompanyRow.municipio_norm).dedup).map
          (fun k => (((rows.map CompanyRow.municipio_norm).count k : ℕ) : ℚ)) := by
      simp only [groupbyMunicipio, List.map_map]
      apply List.map_congr_left
      intro k _
      simp [hcnt k]
    rw [hmaptot, sum_map_natCast]
    have hpermsum : ((List.insertionSort strLe (rows.map CompanyRow.municipio_norm).dedup).map
          (fun k => (rows.map CompanyRow.municipio_norm).count k)).sum =
        (((rows.map CompanyRow.municipio_norm).dedup).map
          (fun k => (rows.map CompanyRow.municipio_norm).count k)).sum :=
      (hperm.map _).sum_eq
    rw [hpermsum, List.sum_map_count_dedup_eq_length, List.length_map]

/-- Witness for C7 at a concrete one-row population. -/
theorem groupbyMunicipio_counts_witness :
    ((groupbyMunicipio [CompanyRow.mk "1" "sp" "campinas" "micro" "206" 100 5]).map
      CityStats.municipio_norm).Nodup ∧
    (∀ k, k ∈ (groupbyMunicipio [CompanyRow.mk "1" "sp" "campinas" "micro" "206" 100 5]).map
        CityStats.municipio_norm ↔
      k ∈ [CompanyRow.mk "1" "sp" "campinas" "micro" "206" 100 5].map CompanyRow.municipio_norm) ∧
    ((groupbyMunicipio [CompanyRow.mk "1" "sp" "campinas" "micro" "206" 100 5]).map
      CityStats.total).sum =
      (([CompanyRow.mk "1" "sp" "campinas" "micro" "206" 100 5] : List CompanyRow).length : ℚ) :=
  groupbyMunicipio_counts [CompanyRow.mk "1" "sp" "campinas" "micro" "206" 100 5] (by simp)

/-! ### Claim C6 -/

/-- Claim C6 (amended): on baselines of at most 15 groups — the regime in
which pandas' single-key `sort_values` runs numpy's plain insertion sort,
so that the embedded sort is exactly the program's sort — equal-distance
groups appear in the truncated peer result in their original baseline
order (the result's equal-distance entries are an initial segment of the
baseline's equal-distance entries).  No tie order is claimed for larger
baselines, where numpy's introsort reorders equal keys freely.  Two
non-negative entries have equal real distance exactly when their rational
radicands are equal.  On the §8 scenario baseline (3 groups, so inside the
covered regime) the returned order is [A(0), C(0), B(≈0.958)] — stability
places A, which precedes the target C in baseline order, first among the
distance-0 ties. -/
theorem peer_ties_stable_small :
    (∀ (b : List CityStats) (c : String) (sel : CityStats) (E : List PeerEntry),
      b.length ≤ 15 →
      b.find? (fun g => g.municipio_norm == c) = some sel →
      peerFinder b c = some E →
      ∀ q : ℚ, ∃ t, (peer_entries b sel c).filter (fun e => decide (e.dist2 = q)) =
        E.filter (fun e => decide (e.dist2 = q)) ++ t) ∧
    (∀ e1 e2 : PeerEntry, 0 ≤ e1.dist2 → 0 ≤ e2.dist2 →
      (e1.dist = e2.dist ↔ e1.dist2 = e2.dist2)) ∧
    ((peerFinder [CityStats.mk "A" 10 2, CityStats.mk "B" 4 8, CityStats.mk "C" 10 2] "C").map
      (fun E => E.map PeerEntry.municipio_norm) = some ["A", "C", "B"]) := by
  refine ⟨?_, ?_, ?_⟩
  · intro b c sel E _hsize hf hE q
    have hE2 : E = (List.insertionSort peerLe (peer_entries b sel c)).take 6 := by
      rw [peerFinder_eq_of_find? b c sel hf] at hE
      exact (Option.some.inj hE).symm
    subst hE2
    refine ⟨((List.insertionSort peerLe (peer_entries b sel c)).drop 6).filter
      (fun e => decide (e.dist2 = q)), ?_⟩
    have hstab : (List.insertionSort peerLe (peer_entries b sel c)).filter
        (fun e => decide (e.dist2 = q)) =
        (peer_entries b sel c).filter (fun e => decide (e.dist2 = q)) :=
      filter_insertionSort_key peerLe PeerEntry.dist2 (fun _ _ => Iff.rfl) q (peer_entries b sel c)
    rw [← hstab, ← List.filter_append, List.take_append_drop]
  · intro e1 e2 h1 h2
    rw [PeerEntry.dist, PeerEntry.dist,
      Real.sqrt_inj (by exact_mod_cast h1) (by exact_mod_cast h2)]
    exact Rat.cast_inj
  · simp only [peerFinder, peer_entries, List.map, List.find?, peerLe, distSq, max_total,
      max_idade, scaleOf, listMax, List.foldl, List.insertionSort, List.orderedInsert,
      String.reduceBEq, String.reduceEq]
    norm_num [peerLe, List.take, List.map]

/-- Witness for C6's amended statement at a concrete one-city baseline
(length 1 ≤ 15). -/
theorem peer_ties_stable_small_witness :
    ∃ t, (peer_entries [CityStats.mk "x" 1 2] (CityStats.mk "x" 1 2) "x").filter
        (fun e => decide (e.dist2 = 0)) =
      ([PeerEntry.mk "x" 0 true] : List PeerEntry).filter (fun e => decide (e.dist2 = 0)) ++ t :=
  peer_ties_stable_small.1 [CityStats.mk "x" 1 2] "x" (CityStats.mk "x" 1 2)
    [PeerEntry.mk "x" 0 true]
    (by simp)
    (by simp [List.find?])
    (by simp [peerFinder, peer_entries, List.find?, distSq, max_total, max_idade, scaleOf, listMax])
    0

/-- Counterexample to C6 as stated: on the §8 scenario baseline
[A(10,2), B(4,8), C(10,2)] with target C — three rows, within numpy's
insertion-sort regime, where the embedded sort is exactly the program's
sort — the code returns the order [A, C, B]: the target C ties with A at
distance 0 and the stable sort keeps A, which comes first in baseline
order, ahead of C — not the claimed [C, A, B]. -/
theorem peer_order_counterexample :
    (peerFinder [CityStats.mk "A" 10 2, CityStats.mk "B" 4 8, CityStats.mk "C" 10 2] "C").map
      (fun E => E.map PeerEntry.municipio_norm) = some ["A", "C", "B"] ∧
    (peerFinder [CityStats.mk "A" 10 2, CityStats.mk "B" 4 8, CityStats.mk "C" 10 2] "C").map
      (fun E => E.map PeerEntry.municipio_norm) ≠ some ["C", "A", "B"] := by
  have h : (peerFinder [CityStats.mk "A" 10 2, CityStats.mk "B" 4 8, CityStats.mk "C" 10 2] "C").map
      (fun E => E.map PeerEntry.municipio_norm) = some ["A", "C", "B"] := by
    simp only [peerFinder, peer_entries, List.map, List.find?, peerLe, distSq, max_total,
      max_idade, scaleOf, listMax, List.foldl, List.insertionSort, List.orderedInsert,
      String.reduceBEq, String.reduceEq]
    norm_num [peerLe, List.take, List.map]
  refine ⟨h, ?_⟩
  rw [h]
  simp

/-! ### Claim C9 -/

/-- Claim C9 (code bug): when the `is_high_ticket` column is absent, the
lead ranker key-skips, the KPI calculator falls back to 0, and the
national expansion branch derives the flag from the premium tier
categories — but the state-level `city_matrix` aggregation (src/app4.py
lines 252-256 and 279-282, src/app5.py 244-248 and 271-274) reads the
column with no guard and raises a `KeyError`, contradicting the spec's
'never fatal' handling of missing optional attributes. -/
theorem missing_column_behavior :
    city_matrix_state eduFrame0 = Except.error "KeyError: is_high_ticket" ∧
    rank_institutions eduFrame0 = [LeadRow.mk "00000000000000" 500000 80 12] ∧
    kpi_high_ticket_perc eduFrame0 = 0 ∧
    (ensure_high_ticket eduFrame0).rows.map EduRow.is_high_ticket = [true] := by
  refine ⟨rfl, ?_, rfl, ?_⟩
  · simp [rank_institutions, eduFrame0, eduRow0, sort_leads, List.insertionSort,
      List.orderedInsert]
  · simp [ensure_high_ticket, eduFrame0, eduRow0, premium_tiers]

/-! ### Claim C3 -/

/-- Claim C3 (amended): if the baseline contains the target (written as
`b1 ++ sel :: b2` with `sel` the first group carrying the selected key),
then the Peer Finder succeeds and its result contains the target group at
distance exactly 0 and tagged as target, whenever at most six baseline
groups (the target among them) lie at distance 0 from the target.  This
condition is independent of how the sort breaks ties: the zero-distance
entries occupy the initial positions of every ascending ordering of the
distance column, so when they number at most six, `head(6)` keeps them all
— the target included — under any tie order the program may produce.
With seven or more zero-distance groups the truncation can drop the
target, as the counterexample shows. -/
theorem peerFinder_target_in_result (b1 b2 : List CityStats) (sel : CityStats) (c : String)
    (hsel : sel.municipio_norm = c)
    (hb1 : ∀ g ∈ b1, g.municipio_norm ≠ c)
    (hcount : ((b1 ++ sel :: b2).filter (fun g =>
      decide (distSq (b1 ++ sel :: b2) sel g = 0))).length ≤ 6) :
    ∃ E, peerFinder (b1 ++ sel :: b2) c = some E ∧
      ∃ e ∈ E, e.municipio_norm = c ∧ e.dist = 0 ∧ e.alvo = true := by
  have hfind : (b1 ++ sel :: b2).find? (fun g => g.municipio_norm == c) = some sel := by
    apply find?_append_cons _ _ _ b1
    · intro x hx
      exact beq_eq_false_iff_ne.mpr (hb1 x hx)
    · simp [hsel]
  have hpf := peerFinder_eq_of_find? (b1 ++ sel :: b2) c sel hfind
  refine ⟨(List.insertionSort peerLe (peer_entries (b1 ++ sel :: b2) sel c)).take 6, hpf, ?_⟩
  have hd0 : distSq (b1 ++ sel :: b2) sel sel = 0 := by
    simp [distSq]
  have hPe0 : (fun e : PeerEntry => decide (e.dist2 = 0))
      (PeerEntry.mk sel.municipio_norm (distSq (b1 ++ sel :: b2) sel sel)
        (sel.municipio_norm == c)) = true := by
    simp [hd0]
  have hselmem : sel ∈ b1 ++ sel :: b2 :=
    List.mem_append_right b1 (List.mem_cons_self sel b2)
  have he0mem : PeerEntry.mk sel.municipio_norm (distSq (b1 ++ sel :: b2) sel sel)
      (sel.municipio_norm == c) ∈ peer_entries (b1 ++ sel :: b2) sel c := by
    rw [peer_entries]
    exact List.mem_map_of_mem _ hselmem
  have hpermf : ((List.insertionSort peerLe (peer_entries (b1 ++ sel :: b2) sel c)).filter
      (fun e => decide (e.dist2 = 0))).Perm
      ((peer_entries (b1 ++ sel :: b2) sel c).filter (fun e => decide (e.dist2 = 0))) :=
    (List.perm_insertionSort peerLe (peer_entries (b1 ++ sel :: b2) sel c)).filter
      (fun e => decide (e.dist2 = 0))
  have hlenZ : ((List.insertionSort peerLe (peer_entries (b1 ++ sel :: b2) sel c)).filter
      (fun e => decide (e.dist2 = 0))).length ≤ 6 := by
    rw [hpermf.length_eq, peer_entries, List.filter_map, List.length_map]
    exact hcount
  have he0Z : PeerEntry.mk sel.municipio_norm (distSq (b1 ++ sel :: b2) sel sel)
      (sel.municipio_norm == c) ∈
      (List.insertionSort peerLe (peer_entries (b1 ++ sel :: b2) sel c)).filter
        (fun e => decide (e.dist2 = 0)) :=
    hpermf.mem_iff.mpr (List.mem_filter.mpr ⟨he0mem, hPe0⟩)
  have hsorted : (List.insertionSort peerLe (peer_entries (b1 ++ sel :: b2) sel c)).Pairwise
      (fun x y => PeerEntry.dist2 x ≤ PeerEntry.dist2 y) :=
    List.sorted_insertionSort peerLe (peer_entries (b1 ++ sel :: b2) sel c)
  have hnonneg : ∀ x ∈ List.insertionSort peerLe (peer_entries (b1 ++ sel :: b2) sel c),
      0 ≤ PeerEntry.dist2 x := by
    intro x hx
    have hx0 : x ∈ peer_entries (b1 ++ sel :: b2) sel c :=
      (List.perm_insertionSort peerLe (peer_entries (b1 ++ sel :: b2) sel c)).subset hx
    rcases List.mem_map.mp hx0 with ⟨g, hg, rfl⟩
    exact add_nonneg (sq_nonneg _) (sq_nonneg _)
  have hSsplit := sorted_split_zero PeerEntry.dist2
    (List.insertionSort peerLe (peer_entries (b1 ++ sel :: b2) sel c)) hsorted hnonneg
  have hmem : PeerEntry.mk sel.municipio_norm (distSq (b1 ++ sel :: b2) sel sel)
      (sel.municipio_norm == c) ∈
      (List.insertionSort peerLe (peer_entries (b1 ++ sel :: b2) sel c)).take 6 := by
    have htakeSplit : (List.insertionSort peerLe (peer_entries (b1 ++ sel :: b2) sel c)).take 6 =
        ((List.insertionSort peerLe (peer_entries (b1 ++ sel :: b2) sel c)).filter
          (fun x => decide (x.dist2 = 0))) ++
        ((List.insertionSort peerLe (peer_entries (b1 ++ sel :: b2) sel c)).filter
          (fun x => !decide (x.dist2 = 0))).take
          (6 - ((List.insertionSort peerLe (peer_entries (b1 ++ sel :: b2) sel c)).filter
            (fun x => decide (x.dist2 = 0))).length) := by
      conv_lhs => rw [hSsplit]
      rw [List.take_append_eq_append_take, List.take_of_length_le hlenZ]
    rw [htakeSplit]
    exact List.mem_append_left _ he0Z
  refine ⟨_, hmem, hsel, ?_, by simp [hsel]⟩
  rw [PeerEntry.dist]
  simp [hd0]

/-- Witness for C3's amended statement: a singleton baseline containing
only the target. -/
theorem peerFinder_target_in_result_witness :
    ∃ E, peerFinder ([] ++ CityStats.mk "x" 1 2 :: []) "x" = some E ∧
      ∃ e ∈ E, e.municipio_norm = "x" ∧ e.dist = 0 ∧ e.alvo = true :=
  peerFinder_target_in_result [] [] (CityStats.mk "x" 1 2) "x" rfl (by simp)
    (le_trans (List.length_filter_le _ _) (by simp))

/-- Counterexample to C3 as stated: a baseline of seven identical groups
with the target last — seven rows, within numpy's insertion-sort regime,
where the embedded sort is exactly the program's sort.  All seven tie at
distance 0, the stable sort keeps baseline order, and `head(6)` drops the
target: no entry of the result carries the target key at all. -/
theorem peerFinder_target_truncated_counterexample :
    peerFinder [CityStats.mk "a" 1 1, CityStats.mk "b" 1 1, CityStats.mk "c" 1 1,
        CityStats.mk "d" 1 1, CityStats.mk "e" 1 1, CityStats.mk "f" 1 1,
        CityStats.mk "g" 1 1] "g"
      = some [PeerEntry.mk "a" 0 false, PeerEntry.mk "b" 0 false, PeerEntry.mk "c" 0 false,
        PeerEntry.mk "d" 0 false, PeerEntry.mk "e" 0 false, PeerEntry.mk "f" 0 false] ∧
    ∀ e ∈ [PeerEntry.mk "a" 0 false, PeerEntry.mk "b" 0 false, PeerEntry.mk "c" 0 false,
        PeerEntry.mk "d" 0 false, PeerEntry.mk "e" 0 false, PeerEntry.mk "f" 0 false],
      e.municipio_norm ≠ "g" := by
  constructor
  · simp only [peerFinder, peer_entries, List.map, List.find?, peerLe, distSq, max_total,
      max_idade, scaleOf, listMax, List.foldl, List.insertionSort, List.orderedInsert,
      String.reduceBEq, String.reduceEq]
    norm_num [peerLe, List.take, List.map]
  · simp
